import Mathlib

/-!
Verification of the pyckson model-building and parser-dispatch core.

The development shallowly embeds the two source files of the core:
  * pyckson/model/builder.py  (class PycksonModelBuilder)
  * pyckson/parsers/base.py   (the Parser class family)

Python runtime values are embedded as the inductive `PyValue`; Python
classes usable as second argument of isinstance are embedded as `PyType`;
raised exceptions become the `Except PyError` monad, where
`PyError.valueError`, `PyError.typeError` and `PyError.parserException`
embed the builtin ValueError, TypeError and the library's ParserException.
The specification's abstract error taxonomy maps onto these concrete
exception classes: `ConfigurationError` names the build-time
ValueError/TypeError raised by the model builder, `TypeMismatchError`
names the parse-time TypeError/ParserException raised by converters.

A Python parser object is embedded as `ParserObj`: a record holding its
`parse` method as a function and the optional `cls` attribute
(`hasattr(parser, 'cls')` holds iff the field is `some`).  Each concrete
parser class of parsers/base.py becomes a Lean definition of the same
name producing a `ParserObj`.
-/

/-- Embedded Python runtime values (the language-native JSON tree plus the
values produced by conversion, such as enum members). -/
inductive PyValue where
  | none
  | bool (b : Bool)
  | int (n : Int)
  | str (s : String)
  | list (xs : List PyValue)
  | dict (kvs : List (String × PyValue))
  | enumMember (enumName : String) (memberName : String) (val : Int)

/-- Embedded Python classes, as they are used as the second argument of
`isinstance` by the parsers (scalar classes, `list`, `dict`, a concrete
Enum subclass identified by its name, and the `Enum` base class). -/
inductive PyType where
  | intT
  | strT
  | boolT
  | listT
  | dictT
  | enumT (name : String)
  | enumBase
deriving DecidableEq

/-- `cls.__name__` for the embedded classes. -/
def PyType.pyName : PyType → String
  | .intT => "int"
  | .strT => "str"
  | .boolT => "bool"
  | .listT => "list"
  | .dictT => "dict"
  | .enumT n => n
  | .enumBase => "Enum"

/-- The scalar classes (targets of the scalar-cast parser). -/
def PyType.isScalar : PyType → Bool
  | .intT => true
  | .strT => true
  | .boolT => true
  | _ => false

/-- Python `isinstance(v, c)` on the embedded values and classes.
Note `bool` is a subclass of `int` in Python, so a bool is an instance
of `int`; every enum member is an instance of the `Enum` base class. -/
def isinstance : PyValue → PyType → Bool
  | .bool _, .boolT => true
  | .bool _, .intT => true
  | .int _, .intT => true
  | .str _, .strT => true
  | .list _, .listT => true
  | .dict _, .dictT => true
  | .enumMember en _ _, .enumT n => en == n
  | .enumMember _ _ _, .enumBase => true
  | _, _ => false

mutual

/-- Python `repr` of an embedded value (as interpolated into messages by
str() on containers). -/
def pyRepr : PyValue → String
  | .none => "None"
  | .bool true => "True"
  | .bool false => "False"
  | .int n => toString n
  | .str s => "'" ++ s ++ "'"
  | .list xs => "[" ++ pyReprSeq xs ++ "]"
  | .dict kvs => "\x7b" ++ pyReprKVs kvs ++ "\x7d"
  | .enumMember en n v => "<" ++ en ++ "." ++ n ++ ": " ++ toString v ++ ">"

/-- Comma-separated reprs of a sequence of values. -/
def pyReprSeq : List PyValue → String
  | [] => ""
  | [x] => pyRepr x
  | x :: y :: xs => pyRepr x ++ ", " ++ pyReprSeq (y :: xs)

/-- Comma-separated reprs of the key/value pairs of a dict. -/
def pyReprKVs : List (String × PyValue) → String
  | [] => ""
  | [kv] => "'" ++ kv.1 ++ "': " ++ pyRepr kv.2
  | kv :: kw :: kvs => "'" ++ kv.1 ++ "': " ++ pyRepr kv.2 ++ ", " ++ pyReprKVs (kw :: kvs)

end

/-- Python `str` of an embedded value, as used by f-string interpolation:
identity on strings, `EnumName.MEMBER` on enum members, `repr` otherwise. -/
def pyStr : PyValue → String
  | .str s => s
  | .enumMember en n _ => en ++ "." ++ n
  | v => pyRepr v

/-- Embedded raised exceptions. -/
inductive PyError where
  | valueError (msg : String)
  | typeError (msg : String)
  | parserException (msg : String)
  | attributeError (msg : String)
  | configurationError (msg : String)
deriving DecidableEq

/-- Python `cls(value)` for the embedded classes, applied by the
scalar-cast parser under its isinstance guard: casting a bool to `int`
yields 0 or 1; every other guarded cast returns the value unchanged
(str of a str, bool of a bool, list of a list, ...). -/
def castTo : PyType → PyValue → PyValue
  | .intT, .bool b => .int (if b then 1 else 0)
  | _, v => v

/-- An embedded enum class: its name and its canonical members, in
declaration order, each a (symbolic name, associated value) pair. -/
structure PyEnum where
  name : String
  members : List (String × Int)
deriving DecidableEq

/-- Embedded Python `str.lower()` (ASCII scope): lowercase every
character of the string. -/
def pyLower (s : String) : String := ⟨s.data.map Char.toLower⟩

/-- An embedded parser object: its `parse` method and its `cls`
attribute when the object has one (`hasattr(parser, 'cls')` is
`cls.isSome`). -/
structure ParserObj where
  parse : PyValue → Except PyError PyValue
  cls : Option PyType

/-- parsers/base.py BasicParser: returns the json value unchanged; the
class sets no `cls` attribute. -/
def BasicParser : ParserObj where
  parse := fun json_value => .ok json_value
  cls := Option.none

/-- parsers/base.py BasicParserWithCast: `self.cls` is the target class;
`parse` raises ParserException unless the value is an instance of it,
then returns `self.cls(json_value)`. -/
def BasicParserWithCast (c : PyType) : ParserObj where
  parse := fun json_value =>
    if isinstance json_value c then .ok (castTo c json_value)
    else .error (.parserException
      ("\"" ++ pyStr json_value ++ "\" is supposed to be a " ++ c.pyName ++ "."))
  cls := some c

/-- Effectful map of the element parser over the items of a json list,
embedding the source's list comprehension that applies the sub parser
to each item of json_value (the first raised exception propagates). -/
def mapExcept (f : PyValue → Except PyError PyValue) : List PyValue → Except PyError (List PyValue)
  | [] => .ok []
  | x :: xs => do
    let y ← f x
    let ys ← mapExcept f xs
    pure (y :: ys)

/-- parsers/base.py ListParser: `self.cls = list`; `parse` raises
ParserException on a non-list and otherwise converts each item with the
sub parser, in order. -/
def ListParser (subParser : ParserObj) : ParserObj where
  parse := fun json_value =>
    match json_value with
    | .list xs => Except.map PyValue.list (mapExcept subParser.parse xs)
    | v => .error (.parserException ("\"" ++ pyStr v ++ "\" is supposed to be a list."))
  cls := some .listT

/-- parsers/base.py DefaultEnumParser: `self.cls` is the enum class;
`parse` raises ParserException unless the value is a key of
`cls.__members__` (an exact member name), and then returns `cls[value]`. -/
def DefaultEnumParser (c : PyEnum) : ParserObj where
  parse := fun value =>
    match value with
    | .str s =>
      match c.members.find? (fun m => m.1 == s) with
      | some m => .ok (.enumMember c.name m.1 m.2)
      | Option.none => .error (.parserException
          ("\"" ++ s ++ "\" is not a valid value for \"" ++ c.name ++ "\" Enum."))
    | v => .error (.parserException
        ("\"" ++ pyStr v ++ "\" is not a valid value for \"" ++ c.name ++ "\" Enum."))
  cls := some (.enumT c.name)

/-- parsers/base.py CaseInsensitiveEnumParser: the constructor
precomputes `self.values = {member.name.lower(): member for member in
cls}` (a dict comprehension, so on lowercase collisions the lastly
declared member wins) and sets `self.cls = Enum` (the base class, hence
the message naming "Enum"); `parse` looks up `value.lower()` in the
precomputed dict.  The last-wins dict lookup is embedded as `find?` on
the reversed member list. -/
def CaseInsensitiveEnumParser (c : PyEnum) : ParserObj where
  parse := fun value =>
    match value with
    | .str s =>
      match c.members.reverse.find? (fun m => pyLower m.1 == pyLower s) with
      | some m => .ok (.enumMember c.name m.1 m.2)
      | Option.none => .error (.parserException
          ("\"" ++ s ++ "\" is not a valid value for \"Enum\" Enum."))
    | _ => .error (.attributeError "object has no attribute lower")
  cls := some .enumBase

/-- parsers/base.py BasicDictParser: returns the json value unchanged;
the class sets no `cls` attribute. -/
def BasicDictParser : ParserObj where
  parse := fun json_value => .ok json_value
  cls := Option.none

/-- The match test of UnionParser.parse for one alternative:
`hasattr(parser, 'cls') and isinstance(json_value, parser.cls)`. -/
def unionMatch (p : ParserObj) (json_value : PyValue) : Bool :=
  match p.cls with
  | some c => isinstance json_value c
  | Option.none => false

/-- The loop of parsers/base.py UnionParser.parse: return the result of
the first alternative whose `cls` attribute exists and matches the
value's runtime class, else raise
`TypeError(f'{json_value} is not compatible with Union type in Pyckson.')`. -/
def unionLoop (json_value : PyValue) : List ParserObj → Except PyError PyValue
  | [] => .error (.typeError (pyStr json_value ++ " is not compatible with Union type in Pyckson."))
  | p :: rest =>
    if unionMatch p json_value then p.parse json_value else unionLoop json_value rest

/-- parsers/base.py UnionParser: holds the alternatives' parsers in
declared order; the class sets no `cls` attribute of its own. -/
def UnionParser (value_parsers : List ParserObj) : ParserObj where
  parse := fun json_value => unionLoop json_value value_parsers
  cls := Option.none

/-!
The model builder (pyckson/model/builder.py).

Constructor parameters are embedded as `Param` (an `inspect.Parameter`:
name, kind, optional annotation — `Option.none` embeds `Parameter.empty`
— and whether a default is present).  Declared types, as inspected by
the builder, are embedded as `TypeExpr`: a plain class, the type of
None, or a typing Union with its `__union_params__` list.

A Python class is embedded as `PyClass`: its `__name__`, its members as
an association list (what `getmembers` iterates, keeping only what the
builder reads: each member's name and, for functions, the parameter
list of its signature), and its configured name-casing rule.
-/

/-- Embedded declared types as the builder inspects them: a plain class,
`type(None)` (the null arm of an `Optional`), or a typing Union with its
`__union_params__`. -/
inductive TypeExpr where
  | prim (t : PyType)
  | noneType
  | union (params : List TypeExpr)

/-- Python `isinstance(None, t)` for an embedded declared type: only the
type of None has None as an instance. -/
def isNoneInstance : TypeExpr → Bool
  | .noneType => true
  | _ => false

/-- The kinds of an `inspect.Parameter`. -/
inductive ParamKind where
  | positionalOnly
  | positionalOrKeyword
  | varPositional
  | keywordOnly
  | varKeyword
deriving DecidableEq

/-- An embedded constructor parameter: the annotation field set to `Option.none` embeds
`Parameter.empty`, `hasDefault` embeds
`parameter.default is not Parameter.empty`. -/
structure Param where
  name : String
  kind : ParamKind
  annotation : Option TypeExpr
  hasDefault : Bool

/-- An embedded Python class as the builder sees it: `__name__`, the
members enumerated by `getmembers` (name, and the parameter list of the
member's signature), and the class's configured name-casing rule. -/
structure PyClass where
  name : String
  members : List (String × List Param)
  nameRule : String → String

/-- Modelled from the spec: `get_name_rule` (pyckson/helpers.py, which is
not under src/) returns the class's configured name-casing rule —
"Compute `external_name` via the class's configured name-casing rule
(default: identity; configurable per class via an attached option)".  We
embed the rule as attached to the class. -/
def get_name_rule (cls : PyClass) : String → String := cls.nameRule

/-- Modelled from the spec: the `PycksonAttribute` record
(pyckson/model/model.py, which is not under src/), with the fields the
builder's constructor calls supply, per spec §3 AttributeModel: source
name, external (JSON) name, declared type, optional flag, and the bound
serializer and parser obtained from the providers.  The serializer and
parser types are parameters because the providers (pyckson/providers.py)
are collaborators outside the core. -/
structure PycksonAttribute (σ π : Type) where
  python_name : String
  json_name : String
  attr_type : TypeExpr
  optional : Bool
  serializer : σ
  parser : π

/-- Modelled from the spec: the `PycksonModel` record
(pyckson/model/model.py, which is not under src/): the ordered sequence
of attributes of one class. -/
structure PycksonModel (σ π : Type) where
  attributes : List (PycksonAttribute σ π)

/-- Modelled from the spec: the `PycksonModel` constructor
(pyckson/model/model.py, which is not under src/).  Spec §4.1: "Assemble
the ordered `AttributeModel` list into a `ClassModel`; enforce the
external-name-uniqueness invariant; fail with `ConfigurationError` if
violated." -/
def mkPycksonModel {σ π : Type} (attrs : List (PycksonAttribute σ π)) :
    Except PyError (PycksonModel σ π) :=
  if (attrs.map (fun a => a.json_name)).Nodup then .ok ⟨attrs⟩
  else .error (.configurationError "duplicate external name in class model")

/-- model/builder.py PycksonModelBuilder: holds the class and the two
providers (the providers are collaborators outside the core, embedded as
functions from the requested declared type, owning class and field name
to whatever they return). -/
structure PycksonModelBuilder (σ π : Type) where
  cls : PyClass
  serializer_provider : TypeExpr → PyClass → String → σ
  parser_provider : TypeExpr → PyClass → String → π

/-- model/builder.py PycksonModelBuilder.find_constructor: scan the
class's members for the one named `__init__`; raise
`ValueError('no constructor_found')` when there is none. -/
def find_constructor {σ π : Type} (b : PycksonModelBuilder σ π) :
    Except PyError (List Param) :=
  match b.cls.members.find? (fun member => member.1 == "__init__") with
  | some member => .ok member.2
  | Option.none => .error (.valueError "no constructor_found")

/-- model/builder.py PycksonModelBuilder.is_optional_type: the declared
type is a typing Union, has exactly two `__union_params__`, and None is
an instance of the second one. -/
def is_optional_type : TypeExpr → Bool
  | .union params =>
    params.length == 2 &&
      (match params.get? 1 with
       | some t => isNoneInstance t
       | Option.none => false)
  | _ => false

/-- `__union_params__[0]` of a declared type (only read under the
`is_optional_type` guard, where the union has two parameters). -/
def unionParam0 : TypeExpr → TypeExpr
  | .union (t :: _) => t
  | t => t

/-- model/builder.py PycksonModelBuilder.build_attribute: compute the
JSON name by the name rule and the optional flag from the default; raise
TypeError for a missing annotation or a parameter kind other than
POSITIONAL_OR_KEYWORD; on the `Optional[T]` shape build the attribute
with declared type `T`, optional forced true, and the serializer and
parser requested from the providers for `str`; otherwise build it with
the annotation as-is and providers requested for the annotation. -/
def build_attribute {σ π : Type} (b : PycksonModelBuilder σ π) (parameter : Param) :
    Except PyError (PycksonAttribute σ π) :=
  let python_name := parameter.name
  let json_name := get_name_rule b.cls parameter.name
  let optional := parameter.hasDefault
  match parameter.annotation with
  | Option.none => .error (.typeError
      ("parameter " ++ parameter.name ++ " in class " ++ b.cls.name ++ " has no type"))
  | some annotation =>
    if parameter.kind ≠ ParamKind.positionalOrKeyword then
      .error (.typeError "pyckson only handle named parameters")
    else if is_optional_type annotation then
      .ok ⟨python_name, json_name, unionParam0 annotation, true,
           b.serializer_provider (.prim .strT) b.cls python_name,
           b.parser_provider (.prim .strT) b.cls python_name⟩
    else
      .ok ⟨python_name, json_name, annotation, optional,
           b.serializer_provider annotation b.cls python_name,
           b.parser_provider annotation b.cls python_name⟩

/-- The loop of model/builder.py PycksonModelBuilder.build_model: build
an attribute for every constructor parameter whose name is not `self`,
in declaration order (the first raised exception propagates). -/
def build_attributes {σ π : Type} (b : PycksonModelBuilder σ π) :
    List Param → Except PyError (List (PycksonAttribute σ π))
  | [] => .ok []
  | parameter :: rest =>
    if parameter.name == "self" then build_attributes b rest
    else do
      let attr ← build_attribute b parameter
      let attrs ← build_attributes b rest
      pure (attr :: attrs)

/-- model/builder.py PycksonModelBuilder.build_model: find the
constructor, build the attribute list, assemble the PycksonModel. -/
def build_model {σ π : Type} (b : PycksonModelBuilder σ π) :
    Except PyError (PycksonModel σ π) := do
  let constructor ← find_constructor b
  let attributes ← build_attributes b constructor
  mkPycksonModel attributes

/-!
Concrete instances used to evaluate the definitions on sample inputs.
-/

/-- A sample enum with two members. -/
def colorEnum : PyEnum := ⟨"Color", [("RED", 0), ("GREEN", 1)]⟩

/-- A sample enum whose two member names differ only by case. -/
def fooEnum : PyEnum := ⟨"E", [("FOO", 0), ("foo", 1)]⟩

/-- A sample class: `class Foo: def __init__(self, a: int, b: str = ...)`,
identity name rule. -/
def demoCls : PyClass := ⟨"Foo", [("__init__",
  [⟨"self", .positionalOrKeyword, Option.none, false⟩,
   ⟨"a", .positionalOrKeyword, some (.prim .intT), false⟩,
   ⟨"b", .positionalOrKeyword, some (.prim .strT), true⟩])], fun s => s⟩

/-- A builder over `demoCls` whose providers return nothing of interest. -/
def demoBuilder : PycksonModelBuilder Unit Unit :=
  ⟨demoCls, fun _ _ _ => (), fun _ _ _ => ()⟩

/-- A sample class whose configured name rule sends every field name to
the same external name, so its two fields casing-collide. -/
def clashCls : PyClass := ⟨"Bar", [("__init__",
  [⟨"self", .positionalOrKeyword, Option.none, false⟩,
   ⟨"a", .positionalOrKeyword, some (.prim .intT), false⟩,
   ⟨"b", .positionalOrKeyword, some (.prim .strT), true⟩])], fun _ => "x"⟩

/-- A builder over `clashCls`. -/
def clashBuilder : PycksonModelBuilder Unit Unit :=
  ⟨clashCls, fun _ _ _ => (), fun _ _ _ => ()⟩

/-- A sample class with an untyped constructor parameter. -/
def untypedCls : PyClass := ⟨"Baz", [("__init__",
  [⟨"self", .positionalOrKeyword, Option.none, false⟩,
   ⟨"a", .positionalOrKeyword, Option.none, false⟩])], fun s => s⟩

/-- A builder over `untypedCls`. -/
def untypedBuilder : PycksonModelBuilder Unit Unit :=
  ⟨untypedCls, fun _ _ _ => (), fun _ _ _ => ()⟩

/-- A builder whose providers record the declared type they were asked to
resolve a serializer or parser for (the request itself is returned, so
two requests for different types are distinguishable). -/
def recBuilder : PycksonModelBuilder TypeExpr TypeExpr :=
  ⟨demoCls, fun t _ _ => t, fun t _ _ => t⟩

/-!
Helper lemmas.
-/

/-- The union loop returns the result of the first alternative that
matches: skipped alternatives are exactly the earlier non-matching ones. -/
theorem unionLoop_first_match (json_value : PyValue) (l1 : List ParserObj)
    (p : ParserObj) (l2 : List ParserObj)
    (hskip : ∀ q ∈ l1, unionMatch q json_value = false)
    (hmatch : unionMatch p json_value = true) :
    unionLoop json_value (l1 ++ p :: l2) = p.parse json_value := by
  induction l1 with
  | nil => simp [unionLoop, hmatch]
  | cons q l1 ih =>
    have hq : unionMatch q json_value = false := hskip q (List.mem_cons_self q l1)
    simp only [List.cons_append, unionLoop, hq, if_false]
    exact ih (fun r hr => hskip r (List.mem_cons_of_mem q hr))

/-- The union loop raises when no alternative matches. -/
theorem unionLoop_no_match (json_value : PyValue) (l : List ParserObj)
    (h : ∀ q ∈ l, unionMatch q json_value = false) :
    unionLoop json_value l
      = .error (.typeError (pyStr json_value ++ " is not compatible with Union type in Pyckson.")) := by
  induction l with
  | nil => rfl
  | cons q l ih =>
    have hq : unionMatch q json_value = false := h q (List.mem_cons_self q l)
    simp only [unionLoop, hq, if_false]
    exact ih (fun r hr => h r (List.mem_cons_of_mem q hr))

/-- `mapExcept` succeeds with `ys` exactly when the function succeeds
pointwise, element by element in order. -/
theorem mapExcept_ok_iff (f : PyValue → Except PyError PyValue)
    (xs : List PyValue) : ∀ ys : List PyValue,
    (mapExcept f xs = .ok ys ↔ List.Forall₂ (fun x y => f x = .ok y) xs ys) := by
  induction xs with
  | nil =>
    intro ys
    constructor
    · intro h
      cases h
      exact List.Forall₂.nil
    · intro h
      rw [List.forall₂_nil_left_iff] at h
      subst h
      rfl
  | cons x xs ih =>
    intro ys
    constructor
    · intro h
      cases hf : f x with
      | error e => rw [mapExcept, hf] at h; cases h
      | ok y =>
        cases hrest : mapExcept f xs with
        | error e => rw [mapExcept, hf, hrest] at h; cases h
        | ok ys0 =>
          rw [mapExcept, hf, hrest] at h
          cases h
          exact List.Forall₂.cons hf ((ih ys0).mp hrest)
    · intro h
      cases h with
      | cons hf hrest =>
        rw [mapExcept, hf, (ih _).mpr hrest]
        rfl

/-- Every failure of `build_attribute` is a TypeError (the two raises in
the source are both `raise TypeError(...)`). -/
theorem build_attribute_error_shape {σ π : Type} (b : PycksonModelBuilder σ π)
    (parameter : Param) (e : PyError)
    (h : build_attribute b parameter = .error e) : ∃ msg, e = .typeError msg := by
  cases hann : parameter.annotation with
  | none =>
    simp only [build_attribute, hann] at h
    exact ⟨_, ((Except.error.injEq _ _).mp h.symm)⟩
  | some annotation =>
    simp only [build_attribute, hann] at h
    split at h
    · exact ⟨_, ((Except.error.injEq _ _).mp h.symm)⟩
    · split at h
      · cases h
      · cases h

/-- Every failure of the `build_attributes` loop is a TypeError. -/
theorem build_attributes_error_shape {σ π : Type} (b : PycksonModelBuilder σ π) :
    ∀ (params : List Param) (e : PyError),
    build_attributes b params = .error e → ∃ msg, e = .typeError msg := by
  intro params
  induction params with
  | nil => intro e h; cases h
  | cons parameter rest ih =>
    intro e h
    by_cases hself : parameter.name = "self"
    · rw [build_attributes, if_pos (by simp [hself])] at h
      exact ih e h
    · rw [build_attributes, if_neg (by simp [hself])] at h
      cases ha : build_attribute b parameter with
      | error e0 =>
        rw [ha] at h
        cases h
        exact build_attribute_error_shape b parameter _ ha
      | ok attr =>
        rw [ha] at h
        cases hrest : build_attributes b rest with
        | error e1 =>
          rw [hrest] at h
          cases h
          exact ih _ hrest
        | ok attrs => rw [hrest] at h; cases h

/-- When the `build_attributes` loop succeeds, every parameter other
than the receiver had an explicit annotation and the
POSITIONAL_OR_KEYWORD kind. -/
theorem build_attributes_ok_shape {σ π : Type} (b : PycksonModelBuilder σ π) :
    ∀ (params : List Param) (attrs : List (PycksonAttribute σ π)),
    build_attributes b params = .ok attrs →
    ∀ parameter ∈ params, parameter.name ≠ "self" →
      parameter.annotation ≠ Option.none ∧ parameter.kind = ParamKind.positionalOrKeyword := by
  intro params
  induction params with
  | nil => intro attrs _ parameter hmem; cases hmem
  | cons p rest ih =>
    intro attrs h parameter hmem hname
    rcases List.mem_cons.mp hmem with heq | hmem0
    · subst heq
      rw [build_attributes, if_neg (by simp [hname])] at h
      cases ha : build_attribute b parameter with
      | error e0 => rw [ha] at h; cases h
      | ok attr =>
        cases hann : parameter.annotation with
        | none =>
          simp only [build_attribute, hann] at ha
          cases ha
        | some annotation =>
          refine ⟨by simp [hann], ?_⟩
          by_contra hk
          simp only [build_attribute, hann] at ha
          rw [if_pos hk] at ha
          cases ha
    · by_cases hself : p.name = "self"
      · rw [build_attributes, if_pos (by simp [hself])] at h
        exact ih attrs h parameter hmem0 hname
      · rw [build_attributes, if_neg (by simp [hself])] at h
        cases ha : build_attribute b p with
        | error e0 => rw [ha] at h; cases h
        | ok attr =>
          rw [ha] at h
          cases hrest : build_attributes b rest with
          | error e1 => rw [hrest] at h; cases h
          | ok attrs0 => exact ih attrs0 hrest parameter hmem0 hname

/-!
Claim theorems.
-/

/-- C3 (amended): for every Union converter and input value, the
converter tests the alternatives for a runtime-shape match
(`hasattr(parser, 'cls') and isinstance(value, parser.cls)`) in declared
order and returns the result of the first alternative whose shape
matches; if no alternative's shape matches, it fails with a parse-time
TypeError (the spec's TypeMismatchError) whose message names the
offending value and refers to the Union type generically, without
identifying the declared union's alternatives. -/
theorem claim3_union_first_match (value_parsers : List ParserObj) (json_value : PyValue) :
    (∀ (l1 : List ParserObj) (p : ParserObj) (l2 : List ParserObj),
      value_parsers = l1 ++ p :: l2 →
      (∀ q ∈ l1, unionMatch q json_value = false) →
      unionMatch p json_value = true →
      (UnionParser value_parsers).parse json_value = p.parse json_value) ∧
    ((∀ p ∈ value_parsers, unionMatch p json_value = false) →
      (UnionParser value_parsers).parse json_value
        = .error (.typeError (pyStr json_value ++ " is not compatible with Union type in Pyckson."))) := by
  constructor
  · intro l1 p l2 hsplit hskip hmatch
    rw [hsplit]
    exact unionLoop_first_match json_value l1 p l2 hskip hmatch
  · intro h
    exact unionLoop_no_match json_value value_parsers h

/-- C3 witness: a string tested against Union[List[...], str] skips the
list alternative and is returned by the str alternative. -/
theorem claim3_witness :
    (UnionParser [ListParser BasicParser, BasicParserWithCast PyType.strT]).parse (.str "a")
      = (BasicParserWithCast PyType.strT).parse (.str "a") :=
  (claim3_union_first_match [ListParser BasicParser, BasicParserWithCast PyType.strT]
      (.str "a")).1 [ListParser BasicParser] (BasicParserWithCast PyType.strT) [] rfl
    (by intro q hq; rw [List.mem_singleton.mp hq]; rfl) rfl

/-- C3 counterexample to the claim's "naming ... the declared union":
two different declared unions produce the identical failure message on
the same value, so the message cannot identify which union was declared
(it names the offending value and says only "Union type in Pyckson"). -/
theorem claim3_counterexample :
    (UnionParser [ListParser BasicParser]).parse (.int 0)
      = .error (.typeError "0 is not compatible with Union type in Pyckson.") ∧
    (UnionParser [BasicParserWithCast PyType.strT]).parse (.int 0)
      = .error (.typeError "0 is not compatible with Union type in Pyckson.") :=
  ⟨rfl, rfl⟩

/-- C10: an alternative whose parser has no `cls` attribute is never
selected by the Union converter: the loop skips it without calling its
parse method, and when every alternative lacks the attribute the union
fails with a TypeError; concretely, a union whose only alternative is
BasicDictParser (which has no `cls` and converts any value) fails on a
dict value that the alternative alone would convert. -/
theorem claim10_union_skips_cls_less (p : ParserObj) (json_value : PyValue)
    (rest : List ParserObj) (h : p.cls = Option.none) :
    (UnionParser (p :: rest)).parse json_value = (UnionParser rest).parse json_value ∧
    ((∀ q ∈ rest, q.cls = Option.none) →
      (UnionParser (p :: rest)).parse json_value
        = .error (.typeError (pyStr json_value ++ " is not compatible with Union type in Pyckson."))) ∧
    (UnionParser [BasicDictParser]).parse (.dict [("k", .int 1)])
      = .error (.typeError (pyStr (.dict [("k", .int 1)]) ++ " is not compatible with Union type in Pyckson.")) ∧
    BasicDictParser.parse (.dict [("k", .int 1)]) = .ok (.dict [("k", .int 1)]) := by
  have hm : unionMatch p json_value = false := by rw [unionMatch, h]
  refine ⟨?_, ?_, rfl, rfl⟩
  · show unionLoop json_value (p :: rest) = unionLoop json_value rest
    rw [unionLoop, hm]
    rfl
  · intro hall
    refine unionLoop_no_match json_value (p :: rest) ?_
    intro q hq
    rcases List.mem_cons.mp hq with heq | hmem
    · rw [heq]; exact hm
    · rw [unionMatch, hall q hmem]

/-- C10 witness: a cls-less alternative at the head of a union is
skipped. -/
theorem claim10_witness :
    (UnionParser [BasicParser]).parse (.int 0) = (UnionParser []).parse (.int 0) :=
  (claim10_union_skips_cls_less BasicParser (.int 0) [] rfl).1

/-- C5: the List converter applied to a JSON array succeeds exactly when
the element converter succeeds on every element, yielding the ordered
sequence of element conversions (same length, i-th output = element
converter on i-th input, stated as `List.Forall₂`); applied to any
non-array value it fails with the parse-time ParserException (the spec's
TypeMismatchError). -/
theorem claim5_list_conversion (subParser : ParserObj) (json_value : PyValue) :
    (∀ (xs ys : List PyValue), json_value = .list xs →
      ((ListParser subParser).parse json_value = .ok (.list ys) ↔
        List.Forall₂ (fun x y => subParser.parse x = .ok y) xs ys)) ∧
    (∀ (xs ys : List PyValue), json_value = .list xs →
      (ListParser subParser).parse json_value = .ok (.list ys) → ys.length = xs.length) ∧
    ((∀ xs : List PyValue, json_value ≠ .list xs) →
      (ListParser subParser).parse json_value
        = .error (.parserException ("\"" ++ pyStr json_value ++ "\" is supposed to be a list."))) := by
  have hmain : ∀ (xs ys : List PyValue), json_value = .list xs →
      ((ListParser subParser).parse json_value = .ok (.list ys) ↔
        List.Forall₂ (fun x y => subParser.parse x = .ok y) xs ys) := by
    intro xs ys hv
    subst hv
    show Except.map PyValue.list (mapExcept subParser.parse xs) = .ok (.list ys) ↔ _
    constructor
    · intro h
      cases hmap : mapExcept subParser.parse xs with
      | error e => rw [hmap] at h; cases h
      | ok zs =>
        rw [hmap] at h
        have hz : zs = ys := by
          have := (Except.ok.injEq _ _).mp h
          exact (PyValue.list.injEq _ _).mp this
        subst hz
        exact (mapExcept_ok_iff subParser.parse xs zs).mp hmap
    · intro h
      rw [(mapExcept_ok_iff subParser.parse xs ys).mpr h]
      rfl
  refine ⟨hmain, ?_, ?_⟩
  · intro xs ys hv h
    exact (List.Forall₂.length_eq ((hmain xs ys hv).mp h)).symm
  · intro h
    cases json_value with
    | list xs => exact absurd rfl (h xs)
    | none => rfl
    | bool b => rfl
    | int n => rfl
    | str s => rfl
    | dict kvs => rfl
    | enumMember en n v => rfl

/-- C5 witness: a list of ints is element-cast in order; a string is
rejected. -/
theorem claim5_witness :
    (ListParser (BasicParserWithCast PyType.intT)).parse (.list [.int 1, .int 2])
      = .ok (.list [.int 1, .int 2]) ∧
    (ListParser (BasicParserWithCast PyType.intT)).parse (.str "not-a-list")
      = .error (.parserException "\"not-a-list\" is supposed to be a list.") :=
  ⟨((claim5_list_conversion (BasicParserWithCast PyType.intT) (.list [.int 1, .int 2])).1
      [.int 1, .int 2] [.int 1, .int 2] rfl).mpr
      (List.Forall₂.cons rfl (List.Forall₂.cons rfl List.Forall₂.nil)),
   (claim5_list_conversion (BasicParserWithCast PyType.intT) (.str "not-a-list")).2.2
      (fun xs h => by cases h)⟩

/-- C6: the by-name enum converter accepts exactly the strings equal,
with exact case, to a declared member's symbolic name, returning that
member, and rejects every other string with a ParserException (the
member names of a Python enum are pairwise distinct, which is the
`Nodup` hypothesis). -/
theorem claim6_enum_by_name (c : PyEnum) (s : String)
    (hnd : (c.members.map Prod.fst).Nodup) :
    (∀ v : Int, (s, v) ∈ c.members →
      (DefaultEnumParser c).parse (.str s) = .ok (.enumMember c.name s v)) ∧
    ((∀ v : Int, (s, v) ∉ c.members) →
      (DefaultEnumParser c).parse (.str s)
        = .error (.parserException
            ("\"" ++ s ++ "\" is not a valid value for \"" ++ c.name ++ "\" Enum."))) := by
  constructor
  · intro v hv
    have hsome : (c.members.find? (fun m => m.1 == s)).isSome :=
      List.find?_isSome.mpr ⟨(s, v), hv, by simp⟩
    rcases Option.isSome_iff_exists.mp hsome with ⟨m, hm⟩
    have hpred : m.1 = s := by simpa using List.find?_some hm
    have hmem : m ∈ c.members := List.mem_of_find?_eq_some hm
    have hmv : m = (s, v) := by
      refine List.inj_on_of_nodup_map hnd hmem hv ?_
      simp [hpred]
    show (match c.members.find? (fun m => m.1 == s) with
      | some m => Except.ok (PyValue.enumMember c.name m.1 m.2)
      | Option.none => Except.error (PyError.parserException
          ("\"" ++ s ++ "\" is not a valid value for \"" ++ c.name ++ "\" Enum."))) = _
    rw [hm, hmv]
  · intro h
    have hnone : c.members.find? (fun m => m.1 == s) = Option.none := by
      refine List.find?_eq_none.mpr ?_
      intro m hmem hpred
      have h1 : m.1 = s := by simpa using hpred
      exact h m.2 (by rw [← h1]; exact hmem)
    show (match c.members.find? (fun m => m.1 == s) with
      | some m => Except.ok (PyValue.enumMember c.name m.1 m.2)
      | Option.none => Except.error (PyError.parserException
          ("\"" ++ s ++ "\" is not a valid value for \"" ++ c.name ++ "\" Enum."))) = _
    rw [hnone]

/-- C6 witness: the exact member name "RED" is accepted; the
differently-cased "red" is rejected. -/
theorem claim6_witness :
    (DefaultEnumParser colorEnum).parse (.str "RED") = .ok (.enumMember "Color" "RED" 0) ∧
    (DefaultEnumParser colorEnum).parse (.str "red")
      = .error (.parserException "\"red\" is not a valid value for \"Color\" Enum.") :=
  ⟨(claim6_enum_by_name colorEnum "RED" (by decide)).1 0 (by decide),
   (claim6_enum_by_name colorEnum "red" (by decide)).2
      (by intro v hv; simp [colorEnum] at hv)⟩

/-- A `find?` hit splits the list at the first match: nothing before it
satisfies the predicate. -/
theorem find?_split {α : Type} (p : α → Bool) :
    ∀ (l : List α) (m : α), l.find? p = some m →
    ∃ l1 l2, l = l1 ++ m :: l2 ∧ p m = true ∧ ∀ x ∈ l1, p x = false := by
  intro l
  induction l with
  | nil => intro m h; cases h
  | cons a l ih =>
    intro m h
    cases hpa : p a with
    | true =>
      rw [List.find?_cons_of_pos l hpa] at h
      cases h
      exact ⟨[], l, rfl, hpa, fun x hx => absurd hx (List.not_mem_nil x)⟩
    | false =>
      rw [List.find?_cons_of_neg l (by simp [hpa])] at h
      rcases ih m h with ⟨l1, l2, heq, hpm, hl1⟩
      refine ⟨a :: l1, l2, by rw [heq]; rfl, hpm, ?_⟩
      intro x hx
      rcases List.mem_cons.mp hx with h1 | h1
      · rw [h1]; exact hpa
      · exact hl1 x h1

/-- A `find?` hit on the reversed list is the lastly-declared match of
the original list: nothing after it satisfies the predicate. -/
theorem reverse_find?_split {α : Type} (p : α → Bool) (l : List α) (m : α)
    (h : l.reverse.find? p = some m) :
    ∃ l1 l2, l = l1 ++ m :: l2 ∧ p m = true ∧ ∀ x ∈ l2, p x = false := by
  rcases find?_split p l.reverse m h with ⟨r1, r2, heq, hpm, hr1⟩
  refine ⟨r2.reverse, r1.reverse, ?_, hpm, ?_⟩
  · have h2 := congrArg List.reverse heq
    rw [List.reverse_reverse] at h2
    rw [h2, List.reverse_append, List.reverse_cons, List.append_assoc, List.singleton_append]
  · intro x hx
    exact hr1 x (List.mem_reverse.mp hx)

/-- C7 (amended): for every enum, the case-insensitive enum converter
accepts any string equal to a member's name up to case and returns the
lastly-declared member whose lowercased name matches the input's (first
conjunct: no member declared after the returned one matches) — which is
the corresponding member whenever the members' lowercased names are
pairwise distinct (second conjunct) — and rejects any string matching
no member name under any casing (third conjunct). -/
theorem claim7_enum_case_insensitive (c : PyEnum) (s : String) :
    ((∃ (n : String) (v : Int), (n, v) ∈ c.members ∧ pyLower s = pyLower n) →
      ∃ (l1 : List (String × Int)) (n : String) (v : Int) (l2 : List (String × Int)),
        c.members = l1 ++ (n, v) :: l2 ∧ pyLower s = pyLower n ∧
        (∀ m ∈ l2, pyLower s ≠ pyLower m.1) ∧
        (CaseInsensitiveEnumParser c).parse (.str s) = .ok (.enumMember c.name n v)) ∧
    ((c.members.map (fun m => pyLower m.1)).Nodup →
      ∀ (n : String) (v : Int), (n, v) ∈ c.members → pyLower s = pyLower n →
      (CaseInsensitiveEnumParser c).parse (.str s) = .ok (.enumMember c.name n v)) ∧
    ((∀ (n : String) (v : Int), (n, v) ∈ c.members → pyLower s ≠ pyLower n) →
      (CaseInsensitiveEnumParser c).parse (.str s)
        = .error (.parserException
            ("\"" ++ s ++ "\" is not a valid value for \"Enum\" Enum."))) := by
  refine ⟨?_, ?_, ?_⟩
  · rintro ⟨n, v, hv, hs⟩
    have hsome : (c.members.reverse.find? (fun m => pyLower m.1 == pyLower s)).isSome :=
      List.find?_isSome.mpr ⟨(n, v), List.mem_reverse.mpr hv, by simp [hs]⟩
    rcases Option.isSome_iff_exists.mp hsome with ⟨m, hm⟩
    rcases reverse_find?_split _ c.members m hm with ⟨l1, l2, heq, hpm, hl2⟩
    have hpm1 : pyLower m.1 = pyLower s := by simpa using hpm
    refine ⟨l1, m.1, m.2, l2, by rw [heq], hpm1.symm, ?_, ?_⟩
    · intro x hx hcontra
      have hfalse := hl2 x hx
      rw [show (pyLower x.1 == pyLower s) = true by simp [hcontra.symm]] at hfalse
      cases hfalse
    · show (match c.members.reverse.find? (fun m => pyLower m.1 == pyLower s) with
        | some m => Except.ok (PyValue.enumMember c.name m.1 m.2)
        | Option.none => Except.error (PyError.parserException
            ("\"" ++ s ++ "\" is not a valid value for \"Enum\" Enum."))) = _
      rw [hm]
  · intro hnd n v hv hs
    have hndr : (c.members.reverse.map (fun m => pyLower m.1)).Nodup := by
      rw [List.map_reverse, List.nodup_reverse]
      exact hnd
    have hmemr : (n, v) ∈ c.members.reverse := List.mem_reverse.mpr hv
    have hsome : (c.members.reverse.find? (fun m => pyLower m.1 == pyLower s)).isSome :=
      List.find?_isSome.mpr ⟨(n, v), hmemr, by simp [hs]⟩
    rcases Option.isSome_iff_exists.mp hsome with ⟨m, hm⟩
    have hpred : pyLower m.1 = pyLower s := by simpa using List.find?_some hm
    have hmem : m ∈ c.members.reverse := List.mem_of_find?_eq_some hm
    have hmv : m = (n, v) := by
      refine List.inj_on_of_nodup_map hndr hmem hmemr ?_
      simp only []
      rw [hpred, hs]
    show (match c.members.reverse.find? (fun m => pyLower m.1 == pyLower s) with
      | some m => Except.ok (PyValue.enumMember c.name m.1 m.2)
      | Option.none => Except.error (PyError.parserException
          ("\"" ++ s ++ "\" is not a valid value for \"Enum\" Enum."))) = _
    rw [hm, hmv]
  · intro h
    have hnone : c.members.reverse.find? (fun m => pyLower m.1 == pyLower s) = Option.none := by
      refine List.find?_eq_none.mpr ?_
      intro m hmem hpred
      have h1 : pyLower m.1 = pyLower s := by simpa using hpred
      exact h m.1 m.2 (List.mem_reverse.mp hmem) h1.symm
    show (match c.members.reverse.find? (fun m => pyLower m.1 == pyLower s) with
      | some m => Except.ok (PyValue.enumMember c.name m.1 m.2)
      | Option.none => Except.error (PyError.parserException
          ("\"" ++ s ++ "\" is not a valid value for \"Enum\" Enum."))) = _
    rw [hnone]

/-- C7 witness: on the case-colliding enum, "FOO" matches, and the
returned member is the lastly-declared match; on an enum without
collisions, "gReEn" is accepted as a casing of GREEN and "BLUE" is
rejected. -/
theorem claim7_witness :
    (∃ (l1 : List (String × Int)) (n : String) (v : Int) (l2 : List (String × Int)),
      fooEnum.members = l1 ++ (n, v) :: l2 ∧ pyLower "FOO" = pyLower n ∧
      (∀ m ∈ l2, pyLower "FOO" ≠ pyLower m.1) ∧
      (CaseInsensitiveEnumParser fooEnum).parse (.str "FOO") = .ok (.enumMember "E" n v)) ∧
    (CaseInsensitiveEnumParser colorEnum).parse (.str "gReEn")
      = .ok (.enumMember "Color" "GREEN" 1) ∧
    (CaseInsensitiveEnumParser colorEnum).parse (.str "BLUE")
      = .error (.parserException "\"BLUE\" is not a valid value for \"Enum\" Enum.") :=
  ⟨(claim7_enum_case_insensitive fooEnum "FOO").1 ⟨"FOO", 0, by decide, by decide⟩,
   (claim7_enum_case_insensitive colorEnum "gReEn").2.1 (by decide) "GREEN" 1 (by decide)
      (by decide),
   (claim7_enum_case_insensitive colorEnum "BLUE").2.2
      (by intro n v hv; rcases List.mem_cons.mp hv with h1 | h1 <;> simp_all [colorEnum] <;> decide)⟩

/-- C7 counterexample to the claim as stated: for the enum with members
FOO = 0 and foo = 1 (legal in Python: distinct names, distinct values),
the valid member name "FOO" is parsed to the member foo, not to the
corresponding member FOO — the precomputed lowercase dict keeps only the
lastly declared member for a colliding lowercase key. -/
theorem claim7_counterexample :
    ("FOO", 0) ∈ fooEnum.members ∧
    (CaseInsensitiveEnumParser fooEnum).parse (.str "FOO") = .ok (.enumMember "E" "foo" 1) ∧
    PyValue.enumMember "E" "foo" 1 ≠ PyValue.enumMember "E" "FOO" 0 :=
  ⟨by decide, rfl, by simp⟩

/-- C8: the scalar-cast converter with scalar target class C returns the
cast of the input (an instance of C) on a value whose runtime class
matches C, and raises ParserException (the spec's conversion failure) on
a value whose runtime class does not match. -/
theorem claim8_scalar_cast (c : PyType) (json_value : PyValue) (hc : c.isScalar = true) :
    (isinstance json_value c = true →
      (BasicParserWithCast c).parse json_value = .ok (castTo c json_value) ∧
      isinstance (castTo c json_value) c = true) ∧
    (isinstance json_value c = false →
      (BasicParserWithCast c).parse json_value
        = .error (.parserException
            ("\"" ++ pyStr json_value ++ "\" is supposed to be a " ++ c.pyName ++ "."))) := by
  refine ⟨fun h => ⟨?_, ?_⟩, fun h => ?_⟩
  · simp [BasicParserWithCast, h]
  · cases c <;> cases json_value <;> simp_all [isinstance, castTo, PyType.isScalar]
  · simp [BasicParserWithCast, h]

/-- C8 witness: int-cast accepts a bool (bool is an int in Python) and
returns the int instance 1; it rejects a string. -/
theorem claim8_witness :
    (BasicParserWithCast PyType.intT).parse (.bool true) = .ok (.int 1) ∧
    isinstance (.int 1) PyType.intT = true ∧
    (BasicParserWithCast PyType.intT).parse (.str "x")
      = .error (.parserException "\"x\" is supposed to be a int.") :=
  ⟨((claim8_scalar_cast PyType.intT (.bool true) rfl).1 rfl).1,
   ((claim8_scalar_cast PyType.intT (.bool true) rfl).1 rfl).2,
   (claim8_scalar_cast PyType.intT (.str "x") rfl).2 rfl⟩

/-- C1: every successfully built class model has pairwise-distinct
external names, and when the attribute list assembled from the
constructor carries two colliding external names, build_model fails at
model-build time with the (spec-modelled) ConfigurationError instead of
producing a model. -/
theorem claim1_external_names_unique {σ π : Type} (b : PycksonModelBuilder σ π) :
    (∀ m : PycksonModel σ π, build_model b = .ok m →
      (m.attributes.map (fun a => a.json_name)).Nodup) ∧
    (∀ (ctor : List Param) (attrs : List (PycksonAttribute σ π)),
      find_constructor b = .ok ctor → build_attributes b ctor = .ok attrs →
      ¬ (attrs.map (fun a => a.json_name)).Nodup →
      build_model b = .error (.configurationError "duplicate external name in class model")) := by
  constructor
  · intro m h
    cases hc : find_constructor b with
    | error e =>
      simp only [build_model, hc, bind, Except.bind] at h
      cases h
    | ok ctor =>
      cases ha : build_attributes b ctor with
      | error e =>
        simp only [build_model, hc, ha, bind, Except.bind] at h
        cases h
      | ok attrs =>
        simp only [build_model, hc, ha, bind, Except.bind, mkPycksonModel] at h
        split at h
        · cases h
          assumption
        · cases h
  · intro ctor attrs hc ha hdup
    simp only [build_model, hc, ha, bind, Except.bind, mkPycksonModel]
    rw [if_neg hdup]

/-- C1 witness: a class whose two fields are sent to the same external
name by its casing rule is rejected at build time with the
ConfigurationError. -/
theorem claim1_witness :
    build_model clashBuilder
      = .error (.configurationError "duplicate external name in class model") :=
  (claim1_external_names_unique clashBuilder).2
    [⟨"self", .positionalOrKeyword, Option.none, false⟩,
     ⟨"a", .positionalOrKeyword, some (.prim .intT), false⟩,
     ⟨"b", .positionalOrKeyword, some (.prim .strT), true⟩]
    [⟨"a", "x", .prim .intT, false, (), ()⟩,
     ⟨"b", "x", .prim .strT, true, (), ()⟩]
    rfl rfl (by decide)

/-- C2: evaluation of the code at the failing input, a constructor
parameter declared `x: Optional[int]` (the two-armed union of int and
the null type).  The built attribute has declared type int and optional
true as the claim states, but both providers are consulted for str —
`self.parser_provider.get(str, self.cls, python_name)` — and the
recorded str request differs from the int request the claim requires, so
the bound converter is the one resolved for str, not for T = int. -/
theorem claim2_optional_converter_request :
    build_attribute recBuilder
        ⟨"x", .positionalOrKeyword, some (.union [.prim .intT, .noneType]), false⟩
      = .ok ⟨"x", "x", .prim .intT, true, .prim .strT, .prim .strT⟩ ∧
    recBuilder.parser_provider (.prim .strT) recBuilder.cls "x"
      ≠ recBuilder.parser_provider (.prim .intT) recBuilder.cls "x" :=
  ⟨rfl, by intro h; injection h with h1; cases h1⟩

/-- C4: model building fails — producing no model — with the build-time
errors the spec groups as ConfigurationError, whenever the class has no
member named `__init__` (ValueError), or some constructor parameter
other than the receiver lacks an annotation or is not a simple
POSITIONAL_OR_KEYWORD parameter (TypeError). -/
theorem claim4_build_failures {σ π : Type} (b : PycksonModelBuilder σ π) :
    (b.cls.members.find? (fun member => member.1 == "__init__") = Option.none →
      build_model b = .error (.valueError "no constructor_found")) ∧
    (∀ ctor : List Param, find_constructor b = .ok ctor →
      (∃ parameter ∈ ctor, parameter.name ≠ "self" ∧
        ( parameter.annotation = Option.none ∨ parameter.kind ≠ ParamKind.positionalOrKeyword)) →
      ∃ msg, build_model b = .error (.typeError msg)) := by
  constructor
  · intro h
    rw [build_model, find_constructor, h]
    rfl
  · intro ctor hc hbad
    cases ha : build_attributes b ctor with
    | ok attrs =>
      exfalso
      rcases hbad with ⟨parameter, hmem, hname, hshape⟩
      have hok := build_attributes_ok_shape b ctor attrs ha parameter hmem hname
      rcases hshape with h1 | h1
      · exact hok.1 h1
      · exact h1 hok.2
    | error e =>
      rcases build_attributes_error_shape b ctor e ha with ⟨msg, hmsg⟩
      refine ⟨msg, ?_⟩
      simp only [build_model, hc, ha, bind, Except.bind]
      rw [hmsg]

/-- C4 witness: a class with an untyped constructor parameter is
rejected at build time with a TypeError, and a class with no __init__
member is rejected with the ValueError. -/
theorem claim4_witness :
    (∃ msg, build_model untypedBuilder = .error (.typeError msg)) ∧
    build_model (PycksonModelBuilder.mk ⟨"Qux", [], fun s => s⟩
        (fun _ _ _ => ()) (fun _ _ _ => ()))
      = .error (.valueError "no constructor_found") :=
  ⟨(claim4_build_failures untypedBuilder).2
      [⟨"self", .positionalOrKeyword, Option.none, false⟩,
       ⟨"a", .positionalOrKeyword, Option.none, false⟩] rfl
      ⟨⟨"a", .positionalOrKeyword, Option.none, false⟩,
        List.mem_cons_of_mem _ (List.mem_cons_self _ _), by simp, Or.inl rfl⟩,
   (claim4_build_failures (PycksonModelBuilder.mk ⟨"Qux", [], fun s => s⟩
        (fun _ _ _ => ()) (fun _ _ _ => ()))).1 rfl⟩

/-- C9: when a constructor parameter's declared type is present and not
the Optional shape, the built attribute's optional flag equals the
presence of a default value on the parameter. -/
theorem claim9_optional_iff_default {σ π : Type} (b : PycksonModelBuilder σ π)
    (parameter : Param) ( annotation : TypeExpr) (attr : PycksonAttribute σ π)
    (h1 : parameter.annotation = some annotation)
    (h2 : is_optional_type annotation = false)
    (h3 : build_attribute b parameter = .ok attr) :
    attr.optional = parameter.hasDefault := by
  simp only [build_attribute, h1] at h3
  split at h3
  · cases h3
  · rw [if_neg (by rw [h2]; intro hf; cases hf)] at h3
    cases h3
    rfl

/-- C9 witness: the parameter `b: str` with a default yields an
attribute with optional = true, i.e. equal to the presence of the
default. -/
theorem claim9_witness :
    (PycksonAttribute.mk "b" "b" (.prim .strT) true () () : PycksonAttribute Unit Unit).optional
      = Param.hasDefault ⟨"b", .positionalOrKeyword, some (.prim .strT), true⟩ :=
  claim9_optional_iff_default demoBuilder
    ⟨"b", .positionalOrKeyword, some (.prim .strT), true⟩ (.prim .strT)
    (PycksonAttribute.mk "b" "b" (.prim .strT) true () ()) rfl rfl rfl
